import Mathlib

/-!
Verification of the `DockerContainer` command-multiplexing core
(`cibuildwheel/docker_container.py`).

The Python code is shallowly embedded: byte strings are `List Nat`
(each element a byte value `< 256`), Python `str` values that may hold
lone surrogates are `List Nat` of code points, ordinary text that the
code builds from literals is Lean `String`, and the stateful container
lifecycle is an explicit record with an effect log.
-/

namespace DockerContainerSpec

/-! ## Python primitive semantics -/

/-- Python sequence-index clamping used by slice expressions `l[a:b]`:
a negative index counts from the end (clamped at 0), a nonnegative one
is clamped at the length. -/
def pyIdx (len : Nat) (i : Int) : Nat :=
  if i < 0 then ((len : Int) + i).toNat else min i.toNat len

/-- Python slice `l[a:b]` with possibly negative bounds. -/
def pySlice {α : Type} (l : List α) (a b : Int) : List α :=
  (l.take (pyIdx l.length b)).drop (pyIdx l.length a)

/-- ASCII whitespace test used when modelling `int()`'s argument
stripping (space, tab, LF, CR). -/
def isWsB (b : Nat) : Bool :=
  decide (b = 32 ∨ b = 9 ∨ b = 10 ∨ b = 13)

/-- Strip leading and trailing whitespace bytes. -/
def stripWs (l : List Nat) : List Nat :=
  ((l.dropWhile isWsB).reverse.dropWhile isWsB).reverse

/-- ASCII decimal digit test. -/
def isDigitB (b : Nat) : Bool :=
  decide (48 ≤ b ∧ b ≤ 57)

/-- Value of a nonempty all-digit byte string, `none` otherwise. -/
def digitsOpt (l : List Nat) : Option Nat :=
  if l = [] then none
  else if l.all isDigitB then some (l.foldl (fun a b => a * 10 + (b - 48)) 0)
  else none

/-- Model of Python `int()` applied to a byte string: optional
surrounding ASCII whitespace, an optional sign, then decimal digits
(the only shapes the footer protocol can produce). `none` models the
`ValueError` that `int()` raises on anything else. -/
def pyInt (l : List Nat) : Option Int :=
  match stripWs l with
  | [] => none
  | c :: rest =>
    if c = 43 then
      match digitsOpt rest with
      | some n => some (n : Int)
      | none => none
    else if c = 45 then
      match digitsOpt rest with
      | some n => some (-(n : Int))
      | none => none
    else
      match digitsOpt (c :: rest) with
      | some n => some (n : Int)
      | none => none

/-- The single-quote character, written by code point to keep source
text plain. -/
def sqChar : Char := Char.ofNat 39

/-- Characters `shlex.quote` leaves bare: ASCII word characters plus
`@ % + = : , . / -` (the complement of the unsafe-character pattern). -/
def isSafeChar (c : Char) : Bool :=
  c.isAlphanum || c = '_' || c = '@' || c = '%' || c = '+' || c = '=' ||
    c = ':' || c = ',' || c = '.' || c = '/' || c = '-'

/-- `shlex.quote`: empty strings become a pair of single quotes, safe
strings pass through, anything else is wrapped in single quotes with
each embedded single quote replaced by the five characters
quote, double-quote, quote, double-quote, quote. -/
def shlexQuote (s : String) : String :=
  if s.isEmpty then String.mk [sqChar, sqChar]
  else if s.data.all isSafeChar then s
  else
    String.mk
      ([sqChar] ++
        (s.data.flatMap fun c =>
          if c = sqChar then [sqChar, '"', sqChar, '"', sqChar] else [c]) ++
      [sqChar])

/-- Python `sep.join(items)`. -/
def pyJoin (sep : String) : List String → String
  | [] => ""
  | [x] => x
  | x :: y :: rest => x ++ sep ++ pyJoin sep (y :: rest)

/-! ## `DockerContainer.call`: composing the shell fragment -/

/-- Effective working directory of one `call`: the per-call `cwd` when
given, otherwise the session default (`if cwd is None: cwd = self.cwd`). -/
def effectiveCwd (sessionCwd : Option String) (cwd : Option String) : Option String :=
  match cwd with
  | some c => some c
  | none => sessionCwd

/-- `chdir = f"cd ⁅cwd⁆" if cwd else ""`: the directory is interpolated
verbatim, with no quoting; a `none` or empty directory is falsy and
yields the empty fragment. -/
def chdirFragment : Option String → String
  | some c => if c = "" then "" else "cd " ++ c
  | none => ""

/-- One `k=v` assignment token: both the key and the value are
individually `shlex.quote`d. -/
def envPair (kv : String × String) : String :=
  shlexQuote kv.1 ++ "=" ++ shlexQuote kv.2

/-- `" ".join(f"..." for k, v in env.items())`: the dict is modelled as
an association list in insertion order. -/
def envAssignments (env : List (String × String)) : String :=
  pyJoin " " (env.map envPair)

/-- `env_assignments` including the `env is None` case, which yields
the empty string. -/
def envAssignmentsOpt : Option (List (String × String)) → String
  | some env => envAssignments env
  | none => ""

/-- `command = " ".join(shlex.quote(str(a)) for a in args)`. -/
def callCommand (args : List String) : String :=
  pyJoin " " (args.map shlexQuote)

/-- The exact f-string written to `bash_stdin` (the `\n` inside the
`printf` format is a real newline in the Python source, since the
f-string is not raw). -/
def callFragment (chdir envAsgn command token : String) : String :=
  "(\n            " ++ chdir ++ "\n            env " ++ envAsgn ++ " " ++
    command ++ "\n            printf \"%04d%s\n\" $? " ++ token ++
    "\n        )\n        "

/-- The full fragment one `call` writes, as a function of the session
default cwd, the per-call cwd, env, args and the fresh token. -/
def writtenFragment (sessionCwd cwd : Option String)
    (env : Option (List (String × String))) (args : List String)
    (token : String) : String :=
  callFragment (chdirFragment (effectiveCwd sessionCwd cwd))
    (envAssignmentsOpt env) (callCommand args) token

/-! ## `DockerContainer.call`: the read loop -/

/-- The read loop of `call`, over the stream rendered as the list of
lines `readline` returns (each line includes its trailing newline when
one was read).  For the first line whose trailing bytes are
`token ++ [10]`, the footer offset is computed as
`len(line) - 1 - len(token) - 4` (a Python `int`, possibly negative),
the return-code field is the slice `line[off : off+4]`, the part of
the line before the offset is the final output fragment, and earlier
lines are written to the output in full.  `none` renders the loop
never finding a footer: at end of stream `readline` keeps returning
the empty byte string, which never ends in `token ++ [10]`, so the
Python loop never terminates. -/
def findFooter (token : List Nat) : List (List Nat) → Option (List Nat × List Nat)
  | [] => none
  | line :: rest =>
    if (token ++ [10]).isSuffixOf line then
      some (pySlice line 0 ((line.length : Int) - 1 - (token.length : Int) - 4),
        pySlice line ((line.length : Int) - 1 - (token.length : Int) - 4)
          ((line.length : Int) - 1 - (token.length : Int) - 4 + 4))
    else
      (findFooter token rest).map (fun r => (line ++ r.1, r.2))

/-- `subprocess.CalledProcessError(returncode, args, output)`; the
output is a Python `str`, held as a code-point list. -/
structure CalledProcessError where
  returncode : Int
  cmd : List String
  output : List Nat
deriving DecidableEq, Repr

/-- Result of one `call` once the fragment has been written: a normal
return with the captured text, a `CalledProcessError`, a `ValueError`
from `int()` on a malformed return-code field, or — when the stream
closes before any footer line — no return at all (`hang` models the
non-terminating read loop; the code has no distinct error for this
case). -/
inductive CallOutcome where
  | ok (output : List Nat)
  | failed (e : CalledProcessError)
  | valueError
  | hang
deriving DecidableEq, Repr

/-! `decodeSE`/`encodeSE` below model `str(b, encoding="utf8",
errors="surrogateescape")` and its inverse; `callOutcome` needs the
decoder. -/

/-- One attempt to read a valid UTF-8 scalar sequence: given the first
byte and the remaining bytes, return the code point and the number of
continuation bytes consumed, or `none` when no valid sequence starts
here (Python's decoder rejects overlong forms, surrogates and code
points above U+10FFFF, which the ranges below encode). -/
def utf8Parse1 (b0 : Nat) (rest : List Nat) : Option (Nat × Nat) :=
  if b0 < 0x80 then some (b0, 0)
  else if 0xC2 ≤ b0 ∧ b0 ≤ 0xDF then
    match rest with
    | b1 :: _ =>
      if 0x80 ≤ b1 ∧ b1 ≤ 0xBF then
        some ((b0 - 0xC0) * 0x40 + (b1 - 0x80), 1)
      else none
    | [] => none
  else if 0xE0 ≤ b0 ∧ b0 ≤ 0xEF then
    match rest with
    | b1 :: b2 :: _ =>
      if ((b0 = 0xE0 → 0xA0 ≤ b1) ∧ (b0 = 0xED → b1 ≤ 0x9F) ∧
            0x80 ≤ b1 ∧ b1 ≤ 0xBF) ∧ (0x80 ≤ b2 ∧ b2 ≤ 0xBF) then
        some ((b0 - 0xE0) * 0x1000 + (b1 - 0x80) * 0x40 + (b2 - 0x80), 2)
      else none
    | _ => none
  else if 0xF0 ≤ b0 ∧ b0 ≤ 0xF4 then
    match rest with
    | b1 :: b2 :: b3 :: _ =>
      if ((b0 = 0xF0 → 0x90 ≤ b1) ∧ (b0 = 0xF4 → b1 ≤ 0x8F) ∧
            0x80 ≤ b1 ∧ b1 ≤ 0xBF) ∧ (0x80 ≤ b2 ∧ b2 ≤ 0xBF) ∧
          (0x80 ≤ b3 ∧ b3 ≤ 0xBF) then
        some ((b0 - 0xF0) * 0x40000 + (b1 - 0x80) * 0x1000 +
          (b2 - 0x80) * 0x40 + (b3 - 0x80), 3)
      else none
    | _ => none
  else none

/-- `str(bytes, encoding="utf8", errors="surrogateescape")`: valid
UTF-8 sequences decode to their code point; any byte not starting a
valid sequence becomes the lone surrogate `0xDC00 + byte`. -/
def decodeSE (bs : List Nat) : List Nat :=
  match bs with
  | [] => []
  | b0 :: rest =>
    match utf8Parse1 b0 rest with
    | some (c, n) => c :: decodeSE (rest.drop n)
    | none => (0xDC00 + b0) :: decodeSE rest
termination_by bs.length
decreasing_by
  · simp only [List.length_cons, List.length_drop]; omega
  · simp only [List.length_cons]; omega

/-- Standard UTF-8 encoding of one code point (assuming it is a scalar
value in range; `encodeSEChar` checks the ranges). -/
def utf8EncodeChar (c : Nat) : List Nat :=
  if c < 0x80 then [c]
  else if c < 0x800 then [0xC0 + c / 0x40, 0x80 + c % 0x40]
  else if c < 0x10000 then
    [0xE0 + c / 0x1000, 0x80 + c / 0x40 % 0x40, 0x80 + c % 0x40]
  else
    [0xF0 + c / 0x40000, 0x80 + c / 0x1000 % 0x40, 0x80 + c / 0x40 % 0x40,
      0x80 + c % 0x40]

/-- `bytes(s, encoding="utf8", errors="surrogateescape")` for one code
point: surrogates in `0xDC80`–`0xDCFF` pass through as the raw byte,
other surrogates raise (`none`), scalar values encode as UTF-8. -/
def encodeSEChar (c : Nat) : Option (List Nat) :=
  if 0xDC80 ≤ c ∧ c ≤ 0xDCFF then some [c - 0xDC00]
  else if 0xD800 ≤ c ∧ c ≤ 0xDFFF then none
  else if c ≤ 0x10FFFF then some (utf8EncodeChar c)
  else none

/-- `bytes(s, encoding="utf8", errors="surrogateescape")` on a whole
code-point string. -/
def encodeSE : List Nat → Option (List Nat)
  | [] => some []
  | c :: rest =>
    match encodeSEChar c, encodeSE rest with
    | some h, some t => some (h ++ t)
    | _, _ => none

/-- The tail of `call` after the fragment is written: run the read
loop, parse the return-code field with `int()`, decode the captured
bytes (or return the empty string when not capturing), and raise
`CalledProcessError(returncode, args, output)` exactly when the parsed
status is nonzero. -/
def callOutcome (args : List String) (captureOutput : Bool)
    (token : List Nat) (lines : List (List Nat)) : CallOutcome :=
  match findFooter token lines with
  | none => .hang
  | some (outBytes, rcBytes) =>
    match pyInt rcBytes with
    | none => .valueError
    | some rc =>
      if rc ≠ 0 then
        .failed ⟨rc, args, if captureOutput then decodeSE outBytes else []⟩
      else .ok (if captureOutput then decodeSE outBytes else [])

/-! ## The remote side: footer emission -/

/-- Modelled from the spec: the bytes `printf "%04d%s\n"` produces for
an exit status in 0–9999 — the status zero-padded to four decimal
digits. -/
def pad4Bytes (n : Nat) : List Nat :=
  [48 + n / 1000 % 10, 48 + n / 100 % 10, 48 + n / 10 % 10, 48 + n % 10]

/-- Modelled from the spec: execution of the subshell-grouped fragment
by the remote shell.  The group runs `cd`, then the `env` command,
then the `printf` trailer in sequence with no exit-on-error, so the
trailer runs no matter how `cd` or the command exited; at the trailer
`$?` is the command's exit status, and the emitted footer line is its
zero-padded status followed by the token and a newline, appended to
whatever lines the command wrote. -/
def runFragment (_cdStatus cmdStatus : Nat) (cmdOutput : List (List Nat))
    (token : List Nat) : List (List Nat) :=
  cmdOutput ++ [pad4Bytes cmdStatus ++ token ++ [10]]

/-! ## Container lifecycle and `copy_out` -/

/-- The fields of `DockerContainer` the lifecycle claims depend on.
`commonArgs` models `self._common_args` (the `shlex.split` of the
user's common-argument string). -/
structure ContainerState where
  dockerImage : String
  simulate32Bit : Bool
  cwd : Option String
  name : Option String
  ociExe : String
  commonArgs : List String
deriving DecidableEq, Repr

/-- One observable effect of a lifecycle or transfer method: an
engine/shell invocation, a host `mkdir`, or a host `unlink`. -/
inductive HostEffect where
  | run (argv : List String)
  | shell (cmd : String)
  | mkdir (path : String) (parents existOk : Bool)
  | unlink (path : String)
deriving DecidableEq, Repr

/-- `DockerContainer.__init__`: rejects an empty image
(`ValueError`), stores the configuration, and leaves `name` unset. -/
def containerInit (dockerImage : String) (simulate32Bit : Bool)
    (cwd : Option String) (ociExe : String) (commonArgs : List String) :
    Except String ContainerState :=
  if dockerImage = "" then
    .error "ValueError: Must have a non-empty docker image to run."
  else
    .ok ⟨dockerImage, simulate32Bit, cwd, none, ociExe, commonArgs⟩

/-- `DockerContainer.__exit__`: after closing the shell's stdin and
reaping the session process, `assert isinstance(self.name, str)` fails
when the name is unset; otherwise the engine's forced removal runs
exactly once and `name` is cleared as the final step (the returned
state is the post-removal one). -/
def containerExit (c : ContainerState) : Except String (ContainerState × List HostEffect) :=
  match c.name with
  | some n =>
    .ok ({ c with name := none },
      [.run ([c.ociExe, "rm"] ++ c.commonArgs ++ ["--force", "-v", n])])
  | none => .error "AssertionError: isinstance(self.name, str)"

/-- Render of `self.name` inside an f-string (`None` prints as the
text `None`). -/
def nameStr : Option String → String
  | some n => n
  | none => "None"

/-- `DockerContainer.copy_out`: create the host destination directory
first (`mkdir(parents=True, exist_ok=True)`), then branch on the
engine: podman archives to a temp file, copies it out, extracts and
unlinks it; docker pipes a remote `tar -c` into a local `tar -x`; any
other engine raises `KeyError(self.oci_exe)` before any transfer.
Returns the effects performed and the raised error, if any. -/
def copyOut (c : ContainerState) (fromPath toPath : String) :
    List HostEffect × Option String :=
  let nm := nameStr c.name
  let joined := pyJoin " " c.commonArgs
  if c.ociExe = "podman" then
    ([.mkdir toPath true true,
      .shell (c.ociExe ++ " exec " ++ joined ++ " -i " ++ nm ++ " tar -cC " ++
        shlexQuote fromPath ++ " -f /tmp/output-" ++ nm ++ ".tar ."),
      .shell (c.ociExe ++ " cp " ++ joined ++ " " ++ nm ++ ":/tmp/output-" ++
        nm ++ ".tar output-" ++ nm ++ ".tar"),
      .shell ("tar -xvf output-" ++ nm ++ ".tar"),
      .unlink (toPath ++ "/output-" ++ nm ++ ".tar")], none)
  else if c.ociExe = "docker" then
    ([.mkdir toPath true true,
      .shell (c.ociExe ++ " exec " ++ joined ++ " -i " ++ nm ++ " tar -cC " ++
        shlexQuote fromPath ++ " -f - . | tar -xf -")], none)
  else
    ([.mkdir toPath true true], some ("KeyError: " ++ c.ociExe))

/-! ## Helper lemmas -/

/-- Tail of a separated join: separator before each element. -/
def joinTail (sep : String) : List String → String
  | [] => ""
  | a :: as => sep ++ a ++ joinTail sep as

theorem intercalate_go_eq (s : String) (as : List String) :
    ∀ acc : String, String.intercalate.go acc s as = acc ++ joinTail s as := by
  induction as with
  | nil => intro acc; simp [String.intercalate.go, joinTail]
  | cons a as ih =>
    intro acc
    simp only [String.intercalate.go, joinTail, ih (acc ++ s ++ a)]
    simp [String.append_assoc]

theorem pyJoin_eq_intercalate (sep : String) (l : List String) :
    pyJoin sep l = String.intercalate sep l := by
  cases l with
  | nil => rfl
  | cons x rest =>
    rw [String.intercalate, intercalate_go_eq]
    induction rest generalizing x with
    | nil => simp [pyJoin, joinTail]
    | cons y ys ih =>
      rw [pyJoin, joinTail, ih y]
      simp [String.append_assoc]

theorem pySlice_natCast {α : Type} (l : List α) (a b : Nat)
    (hab : a ≤ b) (hb : b ≤ l.length) :
    pySlice l (a : Int) (b : Int) = (l.drop a).take (b - a) := by
  unfold pySlice pyIdx
  rw [if_neg (by omega), if_neg (by omega)]
  rw [Int.toNat_natCast, Int.toNat_natCast]
  rw [min_eq_left (le_trans hab hb), min_eq_left hb]
  rw [List.drop_take]

theorem isWsB_digit (x : Nat) : isWsB (48 + x) = false := by
  simp only [isWsB, decide_eq_false_iff_not]
  omega

theorem isDigitB_digit (x : Nat) (h : x ≤ 9) : isDigitB (48 + x) = true := by
  simp only [isDigitB, decide_eq_true_eq]
  omega

theorem pyInt_pad4 (n : Nat) (h : n ≤ 9999) :
    pyInt (pad4Bytes n) = some (n : Int) := by
  have e3 : n / 1000 % 10 ≤ 9 := Nat.le_of_lt_succ (Nat.mod_lt _ (by norm_num))
  have e2 : n / 100 % 10 ≤ 9 := Nat.le_of_lt_succ (Nat.mod_lt _ (by norm_num))
  have e1 : n / 10 % 10 ≤ 9 := Nat.le_of_lt_succ (Nat.mod_lt _ (by norm_num))
  have e0 : n % 10 ≤ 9 := Nat.le_of_lt_succ (Nat.mod_lt _ (by norm_num))
  have hstrip : stripWs (pad4Bytes n) = pad4Bytes n := by
    simp [stripWs, pad4Bytes, List.dropWhile, isWsB_digit]
  have hd : digitsOpt [48 + n / 1000 % 10, 48 + n / 100 % 10,
      48 + n / 10 % 10, 48 + n % 10] = some n := by
    rw [digitsOpt, if_neg (by simp), if_pos
      (by simp [List.all_cons, isDigitB_digit, e3, e2, e1, e0])]
    simp only [List.foldl]
    congr 1
    omega
  rw [pyInt, hstrip, pad4Bytes]
  dsimp only
  rw [if_neg (by omega), if_neg (by omega), hd]

theorem findFooter_no_match (token : List Nat) (pre rest : List (List Nat))
    (hpre : ∀ l ∈ pre, (token ++ [10]).isSuffixOf l = false) :
    findFooter token (pre ++ rest) =
      (findFooter token rest).map (fun r => (pre.flatten ++ r.1, r.2)) := by
  induction pre with
  | nil =>
    simp only [List.nil_append]
    cases h : findFooter token rest with
    | none => simp [h]
    | some r => simp [h]
  | cons l ls ih =>
    have hl : (token ++ [10]).isSuffixOf l = false := hpre l (by simp)
    rw [List.cons_append, findFooter, if_neg (by simp [hl])]
    rw [ih (fun x hx => hpre x (by simp [hx]))]
    cases h : findFooter token rest with
    | none => simp [h]
    | some r => simp [h, List.append_assoc]

theorem findFooter_none (token : List Nat) (lines : List (List Nat))
    (h : ∀ l ∈ lines, (token ++ [10]).isSuffixOf l = false) :
    findFooter token lines = none := by
  induction lines with
  | nil => rfl
  | cons l ls ih =>
    rw [findFooter, if_neg (by simp [h l (by simp)])]
    rw [ih (fun x hx => h x (by simp [hx]))]
    rfl

theorem utf8Parse1_none_ge (b0 : Nat) (rest : List Nat)
    (h : utf8Parse1 b0 rest = none) : 0x80 ≤ b0 := by
  by_contra h'
  push_neg at h'
  rw [utf8Parse1.eq_def, if_pos h'] at h
  exact Option.noConfusion h

theorem encodeSEChar_ascii (c : Nat) (h : c < 0x80) :
    encodeSEChar c = some [c] := by
  rw [encodeSEChar, if_neg (by omega), if_neg (by omega), if_pos (by omega),
    utf8EncodeChar, if_pos h]

theorem encodeSEChar_two (b0 b1 : Nat) (h0 : 0xC2 ≤ b0) (h0' : b0 ≤ 0xDF)
    (h1 : 0x80 ≤ b1) (h1' : b1 ≤ 0xBF) :
    encodeSEChar ((b0 - 0xC0) * 0x40 + (b1 - 0x80)) = some [b0, b1] := by
  rw [encodeSEChar, if_neg (by omega), if_neg (by omega), if_pos (by omega),
    utf8EncodeChar, if_neg (by omega), if_pos (by omega)]
  rw [show 0xC0 + ((b0 - 0xC0) * 0x40 + (b1 - 0x80)) / 0x40 = b0 by omega]
  rw [show 0x80 + ((b0 - 0xC0) * 0x40 + (b1 - 0x80)) % 0x40 = b1 by omega]

theorem encodeSEChar_three (b0 b1 b2 : Nat) (h0 : 0xE0 ≤ b0) (h0' : b0 ≤ 0xEF)
    (hA : b0 = 0xE0 → 0xA0 ≤ b1) (hD : b0 = 0xED → b1 ≤ 0x9F)
    (h1 : 0x80 ≤ b1) (h1' : b1 ≤ 0xBF) (h2 : 0x80 ≤ b2) (h2' : b2 ≤ 0xBF) :
    encodeSEChar ((b0 - 0xE0) * 0x1000 + (b1 - 0x80) * 0x40 + (b2 - 0x80)) =
      some [b0, b1, b2] := by
  have hkey : 0x800 ≤ (b0 - 0xE0) * 0x1000 + (b1 - 0x80) * 0x40 + (b2 - 0x80) ∧
      ((b0 - 0xE0) * 0x1000 + (b1 - 0x80) * 0x40 + (b2 - 0x80) ≤ 0xD7FF ∨
        0xE000 ≤ (b0 - 0xE0) * 0x1000 + (b1 - 0x80) * 0x40 + (b2 - 0x80)) ∧
      (b0 - 0xE0) * 0x1000 + (b1 - 0x80) * 0x40 + (b2 - 0x80) ≤ 0xFFFF := by
    by_cases hE0 : b0 = 0xE0
    · have := hA hE0
      omega
    · by_cases hED : b0 = 0xED
      · have := hD hED
        omega
      · omega
  rw [encodeSEChar, if_neg (by omega), if_neg (by omega), if_pos (by omega),
    utf8EncodeChar, if_neg (by omega), if_neg (by omega), if_pos (by omega)]
  rw [show 0xE0 + ((b0 - 0xE0) * 0x1000 + (b1 - 0x80) * 0x40 + (b2 - 0x80)) / 0x1000
      = b0 by omega]
  rw [show 0x80 + ((b0 - 0xE0) * 0x1000 + (b1 - 0x80) * 0x40 + (b2 - 0x80)) / 0x40 % 0x40
      = b1 by omega]
  rw [show 0x80 + ((b0 - 0xE0) * 0x1000 + (b1 - 0x80) * 0x40 + (b2 - 0x80)) % 0x40
      = b2 by omega]

theorem encodeSEChar_four (b0 b1 b2 b3 : Nat) (h0 : 0xF0 ≤ b0) (h0' : b0 ≤ 0xF4)
    (hF0 : b0 = 0xF0 → 0x90 ≤ b1) (hF4 : b0 = 0xF4 → b1 ≤ 0x8F)
    (h1 : 0x80 ≤ b1) (h1' : b1 ≤ 0xBF) (h2 : 0x80 ≤ b2) (h2' : b2 ≤ 0xBF)
    (h3 : 0x80 ≤ b3) (h3' : b3 ≤ 0xBF) :
    encodeSEChar ((b0 - 0xF0) * 0x40000 + (b1 - 0x80) * 0x1000 +
      (b2 - 0x80) * 0x40 + (b3 - 0x80)) = some [b0, b1, b2, b3] := by
  have hkey : 0x10000 ≤ (b0 - 0xF0) * 0x40000 + (b1 - 0x80) * 0x1000 +
      (b2 - 0x80) * 0x40 + (b3 - 0x80) ∧
      (b0 - 0xF0) * 0x40000 + (b1 - 0x80) * 0x1000 +
        (b2 - 0x80) * 0x40 + (b3 - 0x80) ≤ 0x10FFFF := by
    by_cases hE0 : b0 = 0xF0
    · have := hF0 hE0
      omega
    · by_cases hE4 : b0 = 0xF4
      · have := hF4 hE4
        omega
      · omega
  rw [encodeSEChar, if_neg (by omega), if_neg (by omega), if_pos (by omega),
    utf8EncodeChar, if_neg (by omega), if_neg (by omega), if_neg (by omega)]
  rw [show 0xF0 + ((b0 - 0xF0) * 0x40000 + (b1 - 0x80) * 0x1000 +
      (b2 - 0x80) * 0x40 + (b3 - 0x80)) / 0x40000 = b0 by omega]
  rw [show 0x80 + ((b0 - 0xF0) * 0x40000 + (b1 - 0x80) * 0x1000 +
      (b2 - 0x80) * 0x40 + (b3 - 0x80)) / 0x1000 % 0x40 = b1 by omega]
  rw [show 0x80 + ((b0 - 0xF0) * 0x40000 + (b1 - 0x80) * 0x1000 +
      (b2 - 0x80) * 0x40 + (b3 - 0x80)) / 0x40 % 0x40 = b2 by omega]
  rw [show 0x80 + ((b0 - 0xF0) * 0x40000 + (b1 - 0x80) * 0x1000 +
      (b2 - 0x80) * 0x40 + (b3 - 0x80)) % 0x40 = b3 by omega]

theorem encodeSEChar_escape (b : Nat) (h : 0x80 ≤ b) (h' : b ≤ 0xFF) :
    encodeSEChar (0xDC00 + b) = some [b] := by
  rw [encodeSEChar, if_pos (by omega)]
  rw [show 0xDC00 + b - 0xDC00 = b by omega]

theorem utf8Parse1_encode (b0 : Nat) (rest : List Nat) (c n : Nat)
    (hp : utf8Parse1 b0 rest = some (c, n)) :
    encodeSEChar c = some (b0 :: rest.take n) := by
  rw [utf8Parse1.eq_def] at hp
  by_cases h1 : b0 < 0x80
  · rw [if_pos h1] at hp
    simp only [Option.some.injEq, Prod.mk.injEq] at hp
    obtain ⟨hc, hn⟩ := hp
    subst hc
    subst hn
    simpa using encodeSEChar_ascii b0 h1
  rw [if_neg h1] at hp
  by_cases h2 : 0xC2 ≤ b0 ∧ b0 ≤ 0xDF
  · rw [if_pos h2] at hp
    cases rest with
    | nil => exact Option.noConfusion hp
    | cons b1 tl =>
      dsimp only at hp
      by_cases hc1 : 0x80 ≤ b1 ∧ b1 ≤ 0xBF
      · rw [if_pos hc1] at hp
        simp only [Option.some.injEq, Prod.mk.injEq] at hp
        obtain ⟨hc, hn⟩ := hp
        subst hc
        subst hn
        simpa using encodeSEChar_two b0 b1 h2.1 h2.2 hc1.1 hc1.2
      · rw [if_neg hc1] at hp
        exact Option.noConfusion hp
  rw [if_neg h2] at hp
  by_cases h3 : 0xE0 ≤ b0 ∧ b0 ≤ 0xEF
  · rw [if_pos h3] at hp
    match rest with
    | [] => exact Option.noConfusion hp
    | [b1] => exact Option.noConfusion hp
    | b1 :: b2 :: tl =>
      dsimp only at hp
      by_cases hc1 : ((b0 = 0xE0 → 0xA0 ≤ b1) ∧ (b0 = 0xED → b1 ≤ 0x9F) ∧
          0x80 ≤ b1 ∧ b1 ≤ 0xBF) ∧ (0x80 ≤ b2 ∧ b2 ≤ 0xBF)
      · rw [if_pos hc1] at hp
        simp only [Option.some.injEq, Prod.mk.injEq] at hp
        obtain ⟨hc, hn⟩ := hp
        subst hc
        subst hn
        simpa using encodeSEChar_three b0 b1 b2 h3.1 h3.2 hc1.1.1 hc1.1.2.1
          hc1.1.2.2.1 hc1.1.2.2.2 hc1.2.1 hc1.2.2
      · rw [if_neg hc1] at hp
        exact Option.noConfusion hp
  rw [if_neg h3] at hp
  by_cases h4 : 0xF0 ≤ b0 ∧ b0 ≤ 0xF4
  · rw [if_pos h4] at hp
    match rest with
    | [] => exact Option.noConfusion hp
    | [b1] => exact Option.noConfusion hp
    | [b1, b2] => exact Option.noConfusion hp
    | b1 :: b2 :: b3 :: tl =>
      dsimp only at hp
      by_cases hc1 : ((b0 = 0xF0 → 0x90 ≤ b1) ∧ (b0 = 0xF4 → b1 ≤ 0x8F) ∧
          0x80 ≤ b1 ∧ b1 ≤ 0xBF) ∧ (0x80 ≤ b2 ∧ b2 ≤ 0xBF) ∧ (0x80 ≤ b3 ∧ b3 ≤ 0xBF)
      · rw [if_pos hc1] at hp
        simp only [Option.some.injEq, Prod.mk.injEq] at hp
        obtain ⟨hc, hn⟩ := hp
        subst hc
        subst hn
        simpa using encodeSEChar_four b0 b1 b2 b3 h4.1 h4.2 hc1.1.1 hc1.1.2.1
          hc1.1.2.2.1 hc1.1.2.2.2 hc1.2.1.1 hc1.2.1.2 hc1.2.2.1 hc1.2.2.2
      · rw [if_neg hc1] at hp
        exact Option.noConfusion hp
  rw [if_neg h4] at hp
  exact Option.noConfusion hp

theorem decode_encode_len (N : Nat) : ∀ bs : List Nat, bs.length ≤ N →
    (∀ b ∈ bs, b < 256) → encodeSE (decodeSE bs) = some bs := by
  induction N with
  | zero =>
    intro bs hlen _
    have hbs : bs = [] := List.length_eq_zero.mp (Nat.le_zero.mp hlen)
    subst hbs
    simp [decodeSE, encodeSE]
  | succ N ih =>
    intro bs hlen hb
    match bs with
    | [] => simp [decodeSE, encodeSE]
    | b0 :: rest =>
      rw [decodeSE]
      cases hp : utf8Parse1 b0 rest with
      | some cn =>
        obtain ⟨c, n⟩ := cn
        dsimp only
        have hcenc := utf8Parse1_encode b0 rest c n hp
        have hrec : encodeSE (decodeSE (rest.drop n)) = some (rest.drop n) := by
          refine ih (rest.drop n) ?_ ?_
          · simp only [List.length_drop]
            simp only [List.length_cons] at hlen
            omega
          · intro b hbm
            exact hb b (List.mem_cons_of_mem _ (List.drop_subset _ _ hbm))
        rw [encodeSE, hcenc, hrec]
        dsimp only
        rw [List.cons_append, List.take_append_drop]
      | none =>
        dsimp only
        have hge := utf8Parse1_none_ge b0 rest hp
        have hlt : b0 < 256 := hb b0 (by simp)
        have hrec : encodeSE (decodeSE rest) = some rest := by
          refine ih rest ?_ ?_
          · simp only [List.length_cons] at hlen
            omega
          · intro b hbm
            exact hb b (List.mem_cons_of_mem _ hbm)
        rw [encodeSE, encodeSEChar_escape b0 hge (by omega), hrec]
        rfl

/-! ## Claims -/

/-- Claim C5: the effective working directory of a `call` is the
per-call `cwd` when one is given, the session default when the
per-call `cwd` is `none`; no `cd` directive is emitted when the
effective cwd is the empty string or absent; and a call with an
explicit `cwd` writes the same fragment whatever the session default
is. -/
theorem call_effective_cwd (sessionCwd : Option String) (c : String)
    (env : Option (List (String × String))) (args : List String) (token : String) :
    effectiveCwd sessionCwd (some c) = some c
    ∧ (∀ s, effectiveCwd s none = s)
    ∧ chdirFragment (some "") = ""
    ∧ chdirFragment none = ""
    ∧ (∀ s₁ s₂, writtenFragment s₁ (some c) env args token =
        writtenFragment s₂ (some c) env args token) := by
  refine ⟨rfl, fun s => rfl, by simp [chdirFragment], rfl, fun s₁ s₂ => rfl⟩

/-- Claim C10: the `cd` directive interpolates the effective working
directory verbatim and unquoted — `chdirFragment` of a nonempty
directory is the two characters `cd `, a space, then the directory
exactly — while the arguments go through `shlexQuote`; for a
directory containing a space the emitted text differs from the quoted
form, so the directory changes the meaning of the fragment. -/
theorem chdir_unquoted_verbatim :
    (∀ d : String, d ≠ "" → chdirFragment (some d) = "cd " ++ d)
    ∧ chdirFragment (some "a b") = "cd a b"
    ∧ shlexQuote "a b" ≠ "a b"
    ∧ callCommand ["a b"] = shlexQuote "a b"
    ∧ chdirFragment (some "a b") ≠ "cd " ++ shlexQuote "a b" := by
  refine ⟨fun d hd => by simp [chdirFragment, hd], by decide, by decide, rfl, by decide⟩

/-- Witness for C10 at a concrete directory containing spaces. -/
theorem chdir_unquoted_verbatim_witness :
    chdirFragment (some "/path with spaces") = "cd /path with spaces" :=
  chdir_unquoted_verbatim.1 "/path with spaces" (by decide)

/-- Claim C8: the environment mapping is serialized, in insertion
order, as the shell-quoted `key=value` tokens joined by single spaces;
the serialization is a function of the mapping alone, so equal
mappings give identical wire text. -/
theorem env_serialization_deterministic :
    (∀ env₁ env₂ : List (String × String), env₁ = env₂ →
      envAssignments env₁ = envAssignments env₂)
    ∧ envAssignments [] = ""
    ∧ (∀ k v, envAssignments [(k, v)] = shlexQuote k ++ "=" ++ shlexQuote v)
    ∧ (∀ k v kv rest, envAssignments ((k, v) :: kv :: rest) =
        shlexQuote k ++ "=" ++ shlexQuote v ++ " " ++ envAssignments (kv :: rest))
    ∧ (∀ env : List (String × String),
        envAssignments env = String.intercalate " " (env.map envPair)) := by
  refine ⟨fun env₁ env₂ h => by rw [h], rfl, fun k v => rfl,
    fun k v kv rest => by simp [envAssignments, pyJoin, envPair, String.append_assoc],
    fun env => by rw [envAssignments, pyJoin_eq_intercalate]⟩

/-- Witness for C8 at a concrete two-entry mapping. -/
theorem env_serialization_deterministic_witness :
    envAssignments [("A", "x y"), ("B", "z")] = envAssignments [("A", "x y"), ("B", "z")] :=
  env_serialization_deterministic.1 [("A", "x y"), ("B", "z")] [("A", "x y"), ("B", "z")] rfl

/-- Claim C1: once the read loop has found the footer and the status
field parses, `call` returns normally exactly when the parsed status
is `0`; for a nonzero status it raises
`CalledProcessError(returncode, args, output)` carrying the argument
vector, the status, and the captured output (the empty string when not
capturing). -/
theorem call_exit_status_propagation (args : List String) (cap : Bool)
    (token : List Nat) (lines : List (List Nat)) (outBytes rcBytes : List Nat)
    (rc : Int) (hf : findFooter token lines = some (outBytes, rcBytes))
    (hp : pyInt rcBytes = some rc) :
    ((∃ out, callOutcome args cap token lines = CallOutcome.ok out) ↔ rc = 0)
    ∧ (rc ≠ 0 → callOutcome args cap token lines =
        CallOutcome.failed ⟨rc, args, if cap then decodeSE outBytes else []⟩) := by
  simp only [callOutcome, hf, hp]
  by_cases h0 : rc = 0
  · subst h0
    simp
  · simp [h0]

/-- Witness for C1: a stream whose footer reports status 7 makes the
call fail with that status, the argument vector and the captured
output. -/
theorem call_exit_status_propagation_witness :
    callOutcome ["false"] true [88] [[104, 105, 10], [48, 48, 48, 55, 88, 10]] =
      CallOutcome.failed ⟨7, ["false"], decodeSE [104, 105, 10]⟩ := by
  have h := call_exit_status_propagation ["false"] true [88]
    [[104, 105, 10], [48, 48, 48, 55, 88, 10]] [104, 105, 10] [48, 48, 48, 55] 7
    (by decide) (by decide)
  simpa using h.2 (by decide)

/-- Claim C2: for the first line whose trailing bytes are exactly the
token followed by a newline (and which is long enough to carry the
four status digits), the loop computes the footer offset as the line
length minus 1, minus the token length, minus 4; the four bytes at
that offset are the status field, the bytes of that line before the
offset are appended to the output, and every earlier line is written
to the output in full. -/
theorem call_footer_framing (token line : List Nat) (pre post : List (List Nat))
    (hpre : ∀ l ∈ pre, (token ++ [10]).isSuffixOf l = false)
    (hline : (token ++ [10]).isSuffixOf line = true)
    (hlen : token.length + 5 ≤ line.length) :
    findFooter token (pre ++ line :: post) =
      some (pre.flatten ++ line.take (line.length - 1 - token.length - 4),
        (line.drop (line.length - 1 - token.length - 4)).take 4) := by
  rw [findFooter_no_match token pre _ hpre]
  rw [findFooter, if_pos (by simp [hline])]
  have hoff : (line.length : Int) - 1 - (token.length : Int) - 4 =
      ((line.length - 1 - token.length - 4 : Nat) : Int) := by omega
  rw [hoff]
  rw [show ((0 : Int)) = (((0 : Nat)) : Int) from rfl]
  rw [show (((line.length - 1 - token.length - 4 : Nat) : Int) + 4 =
      ((line.length - 1 - token.length - 4 + 4 : Nat) : Int)) by push_cast; ring]
  rw [pySlice_natCast line 0 _ (by omega) (by omega)]
  rw [pySlice_natCast line _ _ (by omega) (by omega)]
  simp only [Nat.sub_zero, List.drop_zero, Nat.add_sub_cancel_left]
  rfl

/-- Witness for C2: one plain line, then the footer line
`a0012<token>\n`; the output is the plain line plus the byte before
the digits, and the status field is `0012`. -/
theorem call_footer_framing_witness :
    findFooter [88] [[104, 105, 10], [97, 48, 48, 49, 50, 88, 10]] =
      some ([104, 105, 10, 97], [48, 48, 49, 50]) := by
  have h := call_footer_framing [88] [97, 48, 48, 49, 50, 88, 10] [[104, 105, 10]] []
    (by decide) (by decide) (by decide)
  simpa using h

/-- Claim C3: the fragment written to the shell is a single
subshell-grouped text containing, in order, the optional `cd`
directive, the `env` invocation with the serialized assignments and
the quoted arguments, and the trailer
`printf "%04d%s\n" $? <token>`; the trailer is part of the group
unconditionally, and under the shell model it emits the zero-padded
4-digit exit status, the token, and a newline regardless of whether
the `cd` or the command failed. -/
theorem call_fragment_wire_format (sessionCwd cwd : Option String)
    (env : Option (List (String × String))) (args : List String) (token : String) :
    writtenFragment sessionCwd cwd env args token =
      "(\n            " ++ chdirFragment (effectiveCwd sessionCwd cwd) ++
        "\n            env " ++ envAssignmentsOpt env ++ " " ++ callCommand args ++
        "\n            printf \"%04d%s\n\" $? " ++ token ++ "\n        )\n        "
    ∧ (∀ d, effectiveCwd sessionCwd cwd = some d → d ≠ "" →
        chdirFragment (effectiveCwd sessionCwd cwd) = "cd " ++ d)
    ∧ (∀ cdStatus₁ cdStatus₂ st out tok,
        runFragment cdStatus₁ st out tok = runFragment cdStatus₂ st out tok)
    ∧ (∀ st out tok, runFragment 0 st out tok = out ++ [pad4Bytes st ++ tok ++ [10]])
    ∧ (∀ st : Nat, st ≤ 9999 →
        (pad4Bytes st).length = 4 ∧ pyInt (pad4Bytes st) = some (st : Int)) := by
  refine ⟨rfl, ?_, fun _ _ _ _ _ => rfl, fun _ _ _ => rfl,
    fun st hst => ⟨rfl, pyInt_pad4 st hst⟩⟩
  intro d hd hne
  rw [hd]
  simp [chdirFragment, hne]

/-- Witness for C3 at exit status 7. -/
theorem call_fragment_wire_format_witness :
    (pad4Bytes 7).length = 4 ∧ pyInt (pad4Bytes 7) = some (7 : Int) :=
  (call_fragment_wire_format none none none [] "T").2.2.2.2 7 (by decide)

/-- Counterexample to claim C4: when the output stream closes before a
footer line is seen, `call` does not surface any error at all — the
read loop keeps calling `readline`, which at end of stream returns the
empty byte string forever, so the loop never terminates.  With the
stream already closed (`lines = []`), the outcome is the
non-terminating `hang`, not a `ProtocolFraming`-style error (no such
error exists in the code). -/
theorem call_stream_closed_counterexample :
    callOutcome ["true"] true [88] [] = CallOutcome.hang := rfl

/-- Amended claim C4: if the output stream closes before a line ending
with the footer token is observed, `call` never returns — the read
loop runs forever — and no distinct error is raised; the code has no
`ProtocolFraming`-style error. -/
theorem call_stream_closed_hangs (args : List String) (cap : Bool)
    (token : List Nat) (lines : List (List Nat))
    (h : ∀ l ∈ lines, (token ++ [10]).isSuffixOf l = false) :
    callOutcome args cap token lines = CallOutcome.hang := by
  simp only [callOutcome, findFooter_none token lines h]

/-- Witness for amended C4: a stream with one ordinary line and no
footer. -/
theorem call_stream_closed_hangs_witness :
    callOutcome ["echo"] false [88] [[104, 105, 10]] = CallOutcome.hang :=
  call_stream_closed_hangs ["echo"] false [88] [[104, 105, 10]] (by decide)

/-- Claim C6: the session name is unset after construction; teardown
on a running session performs exactly one forced engine removal and
clears the name as its final step; teardown on a torn-down session
fails its name-is-set assertion and never reaches a second removal
call. -/
theorem lifecycle_single_teardown :
    (∀ img s32 cwd exe ca st,
      containerInit img s32 cwd exe ca = Except.ok st → st.name = none)
    ∧ (∀ (c : ContainerState) (n : String), c.name = some n →
        containerExit c = Except.ok ({ c with name := none },
          [HostEffect.run ([c.ociExe, "rm"] ++ c.commonArgs ++ ["--force", "-v", n])]))
    ∧ (∀ c : ContainerState, c.name = none →
        containerExit c = Except.error "AssertionError: isinstance(self.name, str)")
    ∧ (∀ (c c₂ : ContainerState) (n : String) (ops : List HostEffect),
        c.name = some n → containerExit c = Except.ok (c₂, ops) →
        ops.length = 1 ∧ c₂.name = none ∧
          containerExit c₂ = Except.error "AssertionError: isinstance(self.name, str)") := by
  refine ⟨?_, ?_, ?_, ?_⟩
  · intro img s32 cwd exe ca st h
    by_cases himg : img = ""
    · rw [containerInit, if_pos himg] at h
      exact Except.noConfusion h
    · rw [containerInit, if_neg himg] at h
      injection h with h'
      subst h'
      rfl
  · intro c n hn
    simp only [containerExit, hn]
  · intro c h
    simp only [containerExit, h]
  · intro c c₂ n ops hn h
    simp only [containerExit, hn, Except.ok.injEq, Prod.mk.injEq] at h
    obtain ⟨hc, hops⟩ := h
    subst hc
    subst hops
    exact ⟨rfl, rfl, rfl⟩

/-- Witness for C6: tearing down a session named `cib-1` removes it
once; the resulting state has no name. -/
theorem lifecycle_single_teardown_witness :
    containerExit ⟨"img", false, none, some "cib-1", "docker", []⟩ =
      Except.ok (⟨"img", false, none, none, "docker", []⟩,
        [HostEffect.run ["docker", "rm", "--force", "-v", "cib-1"]]) := by
  rw [lifecycle_single_teardown.2.1 ⟨"img", false, none, some "cib-1", "docker", []⟩
    "cib-1" rfl]
  rfl

/-- Claim C9: `copy_out` creates the host destination directory first,
with parents and tolerating an existing directory, and for any engine
other than `docker` and `podman` raises `KeyError(self.oci_exe)` (the
unsupported-engine error of the code) without performing any
transfer. -/
theorem copy_out_unsupported_engine (c : ContainerState) (fromPath toPath : String)
    (hd : c.ociExe ≠ "docker") (hp : c.ociExe ≠ "podman") :
    copyOut c fromPath toPath =
      ([HostEffect.mkdir toPath true true], some ("KeyError: " ++ c.ociExe))
    ∧ (∀ (c' : ContainerState) (f t : String),
        (copyOut c' f t).1.head? = some (HostEffect.mkdir t true true)) := by
  constructor
  · simp only [copyOut]
    rw [if_neg hp, if_neg hd]
  · intro c' f t
    simp only [copyOut]
    split_ifs <;> rfl

/-- Witness for C9 at a concrete unsupported engine. -/
theorem copy_out_unsupported_engine_witness :
    copyOut ⟨"img", false, none, some "c1", "nerdctl", []⟩ "/from" "/to" =
      ([HostEffect.mkdir "/to" true true], some "KeyError: nerdctl") := by
  rw [(copy_out_unsupported_engine ⟨"img", false, none, some "c1", "nerdctl", []⟩
    "/from" "/to" (by decide) (by decide)).1]
  decide

/-- Claim C7: the byte-transparent encoding used for captured output
and for the fragment written to the input sink is a round trip —
decoding any byte sequence with UTF-8 surrogateescape and re-encoding
the resulting text yields exactly the original bytes, and each invalid
byte passes through the encoder unchanged as its escape surrogate. -/
theorem surrogateescape_round_trip (bs : List Nat) (h : ∀ b ∈ bs, b < 256) :
    encodeSE (decodeSE bs) = some bs ∧
    (∀ b : Nat, 0x80 ≤ b → b ≤ 0xFF → encodeSEChar (0xDC00 + b) = some [b]) :=
  ⟨decode_encode_len bs.length bs le_rfl h,
    fun b hb hb' => encodeSEChar_escape b hb hb'⟩

/-- Witness for C7 on bytes that are not valid UTF-8 (a stray
continuation byte, a lone high byte) mixed with ASCII and a valid
multi-byte sequence. -/
theorem surrogateescape_round_trip_witness :
    encodeSE (decodeSE [255, 0, 128, 226, 130, 172, 104]) =
      some [255, 0, 128, 226, 130, 172, 104] :=
  (surrogateescape_round_trip [255, 0, 128, 226, 130, 172, 104] (by decide)).1

end DockerContainerSpec
